import Mathlib

/-!
Shallow embedding of the hover-preview subsystem of the `dim` media client:
the `Card` component (`src/web_ui/src/actions/types.js`, the class appended
to the action-type constants) and the `CardPopup` component
(`src/ui/src/Components/CardList/CardPopup.jsx`).

JavaScript values that can be `undefined`/`null` are modelled with explicit
sum types; machine numbers that the code treats as integers are modelled by
`Nat`/`Int`; the asynchronous fetch effect is modelled by explicit state
passing over event traces.
-/

namespace Dim

/-! ### JavaScript string-or-missing values -/

/-- A JavaScript value that may be a string, `null`, or `undefined`
(absent).  Used for the `description` field of a media summary. -/
inductive JsStr where
  | undef : JsStr
  | null : JsStr
  | str : String → JsStr
deriving DecidableEq

/-! ### Data model: MediaSummary -/

/-- The media summary handed to `CardPopup` via `props.data`
(destructured at `CardPopup.jsx` lines 34-42). -/
structure MediaSummary where
  id : Nat
  name : String
  rating : Option Nat
  description : JsStr
  genres : List String
  year : Nat
  duration : Nat
deriving DecidableEq

/-! ### PlacementResolver (CardPopup.jsx lines 24-32)

`const overflowing = (x + width > window.innerWidth - 5);` — when the
measured rectangle overflows the viewport (margin 5) the direction flips
to `card-popup-left`, otherwise it stays `card-popup-right`. -/

/-- The chosen side of the popup. -/
inductive Side where
  | left : Side
  | right : Side
deriving DecidableEq

/-- Embedding of the placement decision: `x + width > window.innerWidth - 5`
selects `card-popup-left`, otherwise the direction remains
`card-popup-right`.  The source hard-codes the margin `5`; it is kept as a
parameter so the claim's signature can be stated. -/
def resolve (x width viewportWidth margin : Int) : Side :=
  if x + width > viewportWidth - margin then Side.left else Side.right

/-! ### Duration formatting (CardPopup.jsx lines 75-79)

`("0" + Math.floor(duration / 3600)).slice(-2)` etc.  JavaScript coerces
the integer to its decimal string; `.slice(-2)` keeps the final two
UTF-16 code units (all characters here are ASCII digits). -/

/-- Embedding of JavaScript `s.slice(-2)`: the substring consisting of the
last two characters (the whole string when it is shorter). -/
def sliceLast2 (s : String) : String :=
  String.mk (s.data.drop (s.data.length - 2))

/-- Embedding of `("0" + n).slice(-2)`: zero-pad the decimal rendering of `n` and keep
the last two characters. -/
def pad2 (n : Nat) : String :=
  sliceLast2 ("0" ++ Nat.repr n)

/-- The rendered `HH:MM:SS` length string
(`{length.hh}:{length.mm}:{length.ss}`). -/
def formatLength (duration : Nat) : String :=
  pad2 (duration / 3600) ++ ":" ++ pad2 (duration % 3600 / 60) ++ ":"
    ++ pad2 (duration % 3600 % 60)

/-- The claim's rendering of one component, following its words: the
zero-padded decimal of the value, clamped to two digits (so only the last
two decimal digits survive). -/
def specTwoDigits (n : Nat) : String :=
  String.mk [Nat.digitChar (n / 10 % 10), Nat.digitChar (n % 10)]

/-- The claim's `hh:mm:ss` string built from the three clamped
components. -/
def specFormat (d : Nat) : String :=
  specTwoDigits (d / 3600) ++ ":" ++ specTwoDigits (d % 3600 / 60) ++ ":"
    ++ specTwoDigits (d % 3600 % 60)

/-! ### Description rendering (CardPopup.jsx lines 101-106)

`description !== null && description.length > 0 ? <TruncText .../> :
<p>No description found.</p>`.  Reading `.length` of `undefined` throws a
`TypeError`, modelled as `Except.error`. -/

/-- The fixed placeholder. -/
def noDescription : String := "No description found."

/-- Embedding of the description branch.  `null !== null` is false, so
`null` renders the placeholder without touching `.length`; `undefined`
passes the `!== null` guard and then throws on `.length`; a string renders
its content when non-empty and the placeholder otherwise. -/
def renderDescription : JsStr → Except Unit String
  | JsStr.null => Except.ok noDescription
  | JsStr.undef => Except.error ()
  | JsStr.str s => Except.ok (if s.length > 0 then s else noDescription)

/-! ### Genre truncation (CardPopup.jsx lines 81-83 and 110-119)

`if (genres.length > 3) { genres.length = 3 }` — setting `.length`
truncates the array **in place**; `genres` is the very array object stored
in `props.data.genres`, so the caller's summary is mutated. -/

/-- The value of the `genres` array after the truncation statement. -/
def truncGenres (genres : List String) : List String :=
  if genres.length > 3 then genres.take 3 else genres

/-- Rendering the genre section: first component is the list handed to
`genres.map` (the displayed entries); second component is the summary as
the caller sees it after the render, reflecting the in-place
`genres.length = 3` mutation. -/
def renderPopupGenres (data : MediaSummary) : List String × MediaSummary :=
  let g := truncGenres data.genres
  (g, { data with genres := g })

/-! ### Metadata fetch normalization (CardPopup.jsx lines 48-73) -/

/-- One episode of a season payload; playable versions are abstracted to
identifiers. -/
structure Episode where
  versions : List Nat
deriving DecidableEq

/-- One season of a seasons-shaped payload. -/
structure Season where
  episodes : List Episode
deriving DecidableEq

/-- The decoded JSON payload of `/api/v1/media/id/info`.  `seasons = none`
models an absent (or `null`, hence falsy) `seasons` field; `some`
models a present array, which is truthy in JavaScript even when empty. -/
structure Payload where
  error : Bool
  seasons : Option (List Season)
  versions : List Nat
deriving DecidableEq

/-- Embedding of `payload.seasons ? payload.seasons[0].episodes[0].versions :
payload.versions`.  Indexing `[0]` into an empty array yields `undefined`
and the subsequent field access throws, modelled as `none`. -/
def normalizeVersions (p : Payload) : Option (List Nat) :=
  match p.seasons with
  | some ss =>
    match ss with
    | s0 :: _ =>
      match s0.episodes with
      | e0 :: _ => some e0.versions
      | [] => none
    | [] => none
  | none => some p.versions

/-- The net effect of one completed fetch on the `mediaVersions` state:
`if (res.status !== 200) return; if (payload.error) return;` then
`setMediaVersions` with the normalized list.  A thrown exception inside the
async function (the `none` branch) never reaches `setMediaVersions`, so the
state is unchanged there too. -/
def fetchEffect (prev : List Nat) (status : Nat) (p : Payload) : List Nat :=
  if status ≠ 200 then prev
  else if p.error then prev
  else
    match normalizeVersions p with
    | some vs => vs
    | none => prev

/-! ### The Card hover state machine (types.js, class Card)

`handleMouseHover` is bound to both `onMouseEnter` and `onMouseLeave`:
a toggle with no stored timer handle starts a 600 ms timeout; a toggle
with a stored handle clears the timeout, nulls the handle and forces
`hovering: false`.  When the timeout fires, `renderCardPopout` optionally
extracts an accent colour (when `accentDone` is false and the poster blob
is available) and flips `hovering` — it never clears the stored handle and
never sets `accentDone`. -/

/-- An accent theme (`state.accent`). -/
structure Accent where
  background : String
  text : String
deriving DecidableEq

/-- The constructor's fallback accent. -/
def defaultAccent : Accent := { background := "#f7931e", text := "#ffffff" }

/-- The observable state of one `Card` instance, together with two
side-effect counters.  `hoverTimeout` stores the scheduled fire time of the
timer whose handle the component holds (the JavaScript handle stays
non-null after firing, so `fired` records whether it already ran).
`activations` counts the transitions of `hovering` to `true` — each one
mounts `CardPopup`, whose effect issues the metadata fetch;
`extractions` counts completed accent extractions. -/
structure Sim where
  hoverTimeout : Option Nat
  fired : Bool
  hovering : Bool
  accentDone : Bool
  posterBlob : Option Nat
  accent : Accent
  activations : Nat
  extractions : Nat
deriving DecidableEq

/-- The constructor's state: no pending timer (the field is `undefined`,
which fails the `!= null` test), not hovering, `accentDone: false`, no
poster blob, fallback accent. -/
def initCard : Sim :=
  { hoverTimeout := none
    fired := false
    hovering := false
    accentDone := false
    posterBlob := none
    accent := defaultAccent
    activations := 0
    extractions := 0 }

/-- The timer that can still fire, if any: the stored handle unless it has
already run. -/
def pendingFire (st : Sim) : Option Nat :=
  if st.fired then none else st.hoverTimeout

/-- The toggle handler `handleMouseHover` called at time `t`: with a stored handle it clears
the timeout and sets `hoverTimeout: null, hovering: false`; otherwise it
schedules `renderCardPopout` to fire at `t + 600`. -/
def applyToggle (st : Sim) (t : Nat) : Sim :=
  match st.hoverTimeout with
  | some _ => { st with hoverTimeout := none, hovering := false }
  | none => { st with hoverTimeout := some (t + 600), fired := false }

/-- The timer callback `renderCardPopout`: when `accentDone` is false and the poster blob is
available, run the Vibrant extraction (`vib` is the external palette
oracle) and store the derived accent; then flip `hovering`.  The stored
timer handle is left in place and `accentDone` is never written. -/
def applyFire (vib : Nat → Accent) (st : Sim) : Sim :=
  let st1 :=
    if st.accentDone then st
    else
      match st.posterBlob with
      | some b =>
        { st with accent := vib b, extractions := st.extractions + 1 }
      | none => st
  let hov := !st1.hovering
  { st1 with
      hovering := hov
      fired := true
      activations := if hov then st1.activations + 1 else st1.activations }

/-- Events a card instance can experience: a pointer enter/leave toggle at
time `t`, the firing of the pending timer, and the lazy poster image
reporting its loaded blob (`onLoadPoster`). -/
inductive Ev where
  | toggle : Nat → Ev
  | fire : Ev
  | posterLoad : Nat → Ev

/-- One event step.  A `fire` event only has an effect while an uncancelled,
not-yet-fired timer exists. -/
def stepEv (vib : Nat → Accent) (st : Sim) : Ev → Sim
  | Ev.toggle t => applyToggle st t
  | Ev.fire =>
    match pendingFire st with
    | some _ => applyFire vib st
    | none => st
  | Ev.posterLoad b => { st with posterBlob := some b }

/-- Run a list of events in order. -/
def runEvents (vib : Nat → Accent) (st : Sim) : List Ev → Sim
  | [] => st
  | e :: es => runEvents vib (stepEv vib st e) es

/-- Deliver the pending timer callback if it is due at or before time `t`. -/
def fireBefore (vib : Nat → Accent) (st : Sim) (t : Nat) : Sim :=
  match pendingFire st with
  | some ft => if ft ≤ t then stepEv vib st Ev.fire else st
  | none => st

/-- Timed run: process the toggle timestamps in order, delivering the
pending timer callback whenever its fire time precedes the next toggle,
and finally delivering it if it is due by the end of observation
(`endT`). -/
def run (vib : Nat → Accent) (st : Sim) : List Nat → Nat → Sim
  | [], endT => fireBefore vib st endT
  | t :: rest, endT =>
    run vib (applyToggle (fireBefore vib st t) t) rest endT

/-- The debounce hypothesis of the claim: starting from an idle card the
toggles alternate timer-set / timer-cancel, and no timer-setting toggle is
left uninterrupted for 600 ms (each is followed by another toggle within
the debounce window, and the observation window ends less than 600 ms
after a trailing unmatched one). -/
def entersOk : List Nat → Nat → Prop
  | [], _ => True
  | [t], endT => endT < t + 600
  | t :: t' :: rest, endT => t' < t + 600 ∧ entersOk rest endT

/-! ### The CardPopup fetch effect over an event trace (C2)

The effect at lines 48-73 runs on mount and whenever `id` (or the token)
changes; its continuation calls `setMediaVersions` with whatever decoded
payload arrives, without comparing the response's originating id to the
current one and without a cleanup/cancellation function. -/

/-- The popup-relevant state: the current item id, the `mediaVersions`
state, and the ids of issued fetches whose responses are still in
flight. -/
structure PopupSt where
  currentId : Nat
  mediaVersions : List Nat
  inflight : List Nat
deriving DecidableEq

/-- Mounting the popup for item `a` runs the effect once: a fetch for `a`
is in flight and `mediaVersions` starts as `[]`. -/
def initPopup (a : Nat) : PopupSt :=
  { currentId := a, mediaVersions := [], inflight := [a] }

/-- Popup events: the `id` prop changes (the effect re-runs, issuing a
fetch for the new id), or a response for an earlier fetch arrives. -/
inductive PEv where
  | changeId : Nat → PEv
  | arrive : Nat → Nat → Payload → PEv

/-- One popup step.  On arrival of the response issued for `reqId`, the
captured continuation applies `fetchEffect` to the (single, shared)
`mediaVersions` state unconditionally: nothing compares `reqId` with
`st.currentId`. -/
def stepPopup (st : PopupSt) : PEv → PopupSt
  | PEv.changeId b =>
    { st with currentId := b, inflight := st.inflight ++ [b] }
  | PEv.arrive reqId status p =>
    if reqId ∈ st.inflight then
      { st with
          inflight := st.inflight.erase reqId
          mediaVersions := fetchEffect st.mediaVersions status p }
    else st

/-- A flat payload carrying versions `[10]`, used as the stale response. -/
def payloadA : Payload := { error := false, seasons := none, versions := [10] }

/-- The decimal digit characters of `n`, most significant first — the
reference re-specification of `Nat.repr` used to characterize `pad2`. -/
def toChars (n : Nat) : List Char :=
  if _ : n < 10 then [Nat.digitChar n]
  else toChars (n / 10) ++ [Nat.digitChar (n % 10)]
decreasing_by exact Nat.div_lt_self (by omega) (by omega)

/-! ## Theorems -/

/-- Claim C6: for every rect `(x, width)`, viewport width `V` and margin 5,
the resolved side is `Left` exactly when `x + width > V - 5` and `Right`
otherwise; in particular `resolve 1000 300 1200 5 = Left` and
`resolve 100 300 1200 5 = Right`. -/
theorem C6_placement (x w V : Int) :
    (resolve x w V 5 = Side.left ↔ x + w > V - 5) ∧
    (resolve x w V 5 = Side.right ↔ ¬x + w > V - 5) ∧
    resolve 1000 300 1200 5 = Side.left ∧
    resolve 100 300 1200 5 = Side.right := by
  refine ⟨?_, ?_, by decide, by decide⟩ <;>
    · unfold resolve
      split <;> simp_all

/-- Claim C10: a `null` description and an empty-string description both
render the fixed placeholder, while an `undefined` description passes the
`!== null` guard and rendering throws on `.length`. -/
theorem C10_description_guard :
    renderDescription JsStr.null = Except.ok noDescription ∧
    renderDescription (JsStr.str "") = Except.ok noDescription ∧
    renderDescription JsStr.undef = Except.error () :=
  ⟨rfl, rfl, rfl⟩

/-- Claim C5 counterexample: rendering the popup for a summary with four
genres truncates the summary's own genre list in place — the caller's
`genres` list is **not** unchanged by rendering, contradicting the claim's
frame condition at this concrete input. -/
theorem C5_counterexample :
    (renderPopupGenres
      { id := 1, name := "m", rating := none, description := JsStr.null
        genres := ["a", "b", "c", "d"], year := 2000, duration := 0 }).2.genres
      ≠ ["a", "b", "c", "d"] := by
  decide

/-- Claim C5 (amended): rendering limits the displayed genre list to the
first `min N 3` entries in their original order, but the truncation is an
in-place mutation: after rendering, the caller's summary holds that same
truncated list. -/
theorem C5_genres_truncation (data : MediaSummary) :
    (renderPopupGenres data).1 = data.genres.take 3 ∧
    (renderPopupGenres data).1.length = min data.genres.length 3 ∧
    (renderPopupGenres data).2.genres = data.genres.take 3 := by
  have htake : truncGenres data.genres = data.genres.take 3 := by
    unfold truncGenres
    split
    · rfl
    · exact (List.take_of_length_le (by omega)).symm
  refine ⟨htake, ?_, ?_⟩
  · show (truncGenres data.genres).length = _
    rw [htake, List.length_take, Nat.min_comm]
  · show ({ data with genres := truncGenres data.genres } : MediaSummary).genres = _
    simpa using htake

/-- Claim C3: a fetch whose response status is not a success, or whose
decoded payload has the `error` field set, leaves `mediaVersions` exactly
as it was — the effect terminates without any update. -/
theorem C3_fetch_error_atomic (prev : List Nat) (status : Nat) (p : Payload)
    (h : status ≠ 200 ∨ p.error = true) :
    fetchEffect prev status p = prev := by
  unfold fetchEffect
  rcases h with h | h
  · simp [h]
  · by_cases hs : status = 200 <;> simp [hs, h]

/-- Claim C3 witness: a 500 response and an error-flagged 200 response both
leave the previous list `[7]` untouched. -/
theorem C3_fetch_error_atomic_witness :
    fetchEffect [7] 500 payloadA = [7] ∧
    fetchEffect [7] 200 { payloadA with error := true } = [7] :=
  ⟨C3_fetch_error_atomic [7] 500 payloadA (Or.inl (by decide)),
   C3_fetch_error_atomic [7] 200 _ (Or.inr rfl)⟩

/-- Claim C4: for a successful (status 200), non-error response, a payload
with a `seasons` structure yields `seasons[0].episodes[0].versions`, and a
flat payload yields `payload.versions`; either way the result replaces the
previous list wholesale (it does not depend on `prev`). -/
theorem C4_fetch_shape (prev : List Nat) (p : Payload) (he : p.error = false) :
    (∀ s0 ss e0 es, p.seasons = some (s0 :: ss) → s0.episodes = e0 :: es →
      fetchEffect prev 200 p = e0.versions) ∧
    (p.seasons = none → fetchEffect prev 200 p = p.versions) := by
  constructor
  · intro s0 ss e0 es hs hepi
    simp [fetchEffect, he, normalizeVersions, hs, hepi]
  · intro hs
    simp [fetchEffect, he, normalizeVersions, hs]

/-- Claim C4 witness: a seasons-shaped payload produces the first episode's
versions `[3, 4]` and a flat payload produces its top-level `[10]`, each
discarding the previous list `[5]`. -/
theorem C4_fetch_shape_witness :
    fetchEffect [5] 200
      { error := false
        seasons := some [{ episodes := [{ versions := [3, 4] }] }]
        versions := [9] } = [3, 4] ∧
    fetchEffect [5] 200 payloadA = [10] :=
  ⟨(C4_fetch_shape [5] _ rfl).1 _ _ _ _ rfl rfl,
   (C4_fetch_shape [5] payloadA rfl).2 rfl⟩

/-- Claim C2 (code bug): the popup mounts for id 1 (fetch for 1 in flight,
`mediaVersions = []`), the id changes to 2, and only then does the
response for id 1 arrive — the effect's continuation applies it anyway, so
`mediaVersions` becomes `[10]` while the popup shows id 2.  The stale
result is **not** discarded. -/
theorem C2_stale_write_applied :
    (stepPopup (initPopup 1) (PEv.changeId 2)).mediaVersions = [] ∧
    (stepPopup (stepPopup (initPopup 1) (PEv.changeId 2))
        (PEv.arrive 1 200 payloadA)).currentId = 2 ∧
    (stepPopup (stepPopup (initPopup 1) (PEv.changeId 2))
        (PEv.arrive 1 200 payloadA)).mediaVersions = [10] := by
  decide

/-- With no stored timer handle there is no pending timer. -/
theorem pendingFire_none {st : Sim} (h : st.hoverTimeout = none) :
    pendingFire st = none := by
  unfold pendingFire
  rw [h]
  split <;> rfl

/-- With no stored timer handle there is nothing that can fire. -/
theorem fireBefore_handle_none (vib : Nat → Accent) {st : Sim}
    (h : st.hoverTimeout = none) (t : Nat) : fireBefore vib st t = st := by
  unfold fireBefore
  rw [pendingFire_none h]

/-- A scheduled-but-not-due timer does not fire either. -/
theorem fireBefore_not_due (vib : Nat → Accent) {st : Sim} {ft : Nat}
    (hh : st.hoverTimeout = some ft) (hf : st.fired = false) {t : Nat}
    (hlt : t < ft) : fireBefore vib st t = st := by
  unfold fireBefore pendingFire
  rw [hf, if_neg (by simp), hh]
  simp [Nat.not_le.mpr hlt]

/-- Debounced traces are side-effect free: starting from a state with no
stored handle and `hovering` false, a toggle trace satisfying `entersOk`
changes neither the side-effect counters nor the accent data, and leaves
`hovering` false. -/
theorem run_quiet (vib : Nat → Accent) :
    ∀ (n : Nat) (ts : List Nat) (endT : Nat) (st : Sim),
      ts.length ≤ n → st.hoverTimeout = none → st.hovering = false →
      entersOk ts endT →
      (run vib st ts endT).activations = st.activations ∧
      (run vib st ts endT).extractions = st.extractions ∧
      (run vib st ts endT).hovering = false ∧
      (run vib st ts endT).accent = st.accent ∧
      (run vib st ts endT).accentDone = st.accentDone := by
  intro n
  induction n with
  | zero =>
    intro ts endT st hlen hh hhov _
    have hts : ts = [] := List.eq_nil_of_length_eq_zero (Nat.le_zero.mp hlen)
    subst hts
    rw [show run vib st [] endT = fireBefore vib st endT from rfl,
        fireBefore_handle_none vib hh]
    exact ⟨rfl, rfl, hhov, rfl, rfl⟩
  | succ n ih =>
    intro ts endT st hlen hh hhov hok
    match ts with
    | [] =>
      rw [show run vib st [] endT = fireBefore vib st endT from rfl,
          fireBefore_handle_none vib hh]
      exact ⟨rfl, rfl, hhov, rfl, rfl⟩
    | [t] =>
      have hend : endT < t + 600 := hok
      rw [show run vib st [t] endT =
            run vib (applyToggle (fireBefore vib st t) t) [] endT from rfl,
          fireBefore_handle_none vib hh]
      have htog : applyToggle st t =
          { st with hoverTimeout := some (t + 600), fired := false } := by
        unfold applyToggle
        rw [hh]
      rw [htog,
          show run vib { st with hoverTimeout := some (t + 600), fired := false }
              [] endT =
            fireBefore vib
              { st with hoverTimeout := some (t + 600), fired := false } endT
            from rfl,
          fireBefore_not_due vib rfl rfl hend]
      exact ⟨rfl, rfl, hhov, rfl, rfl⟩
    | t :: t' :: rest =>
      obtain ⟨hlt, hok'⟩ := hok
      have hstep : run vib st (t :: t' :: rest) endT =
          run vib { st with hoverTimeout := none, hovering := false, fired := false }
            rest endT := by
        rw [show run vib st (t :: t' :: rest) endT =
              run vib (applyToggle (fireBefore vib st t) t) (t' :: rest) endT
              from rfl,
            fireBefore_handle_none vib hh]
        have htog : applyToggle st t =
            { st with hoverTimeout := some (t + 600), fired := false } := by
          unfold applyToggle
          rw [hh]
        rw [htog,
            show run vib { st with hoverTimeout := some (t + 600), fired := false }
                (t' :: rest) endT =
              run vib
                (applyToggle
                  (fireBefore vib
                    { st with hoverTimeout := some (t + 600), fired := false } t')
                  t')
                rest endT from rfl,
            fireBefore_not_due vib rfl rfl hlt]
        rfl
      rw [hstep]
      have := ih rest endT
        { st with hoverTimeout := none, hovering := false, fired := false }
        (by simpa using Nat.le_of_succ_le_succ (Nat.le_of_succ_le hlen))
        rfl rfl hok'
      simpa using this

/-- Claim C1 — the debounce guarantee.  First: any toggle trace in which no
timer-setting toggle is left uninterrupted for 600 ms never activates the
popup (no mount/fetch, no extraction, not hovering).  Second: a single
toggle whose timer is allowed at least 600 ms fires exactly once,
producing exactly one activation (note the stored handle is left in
place).  Third: a toggle arriving before the timer fires cancels it and
nets to a no-op — the card returns exactly to its initial state. -/
theorem C1_debounce (vib : Nat → Accent) :
    (∀ ts endT, entersOk ts endT →
      (run vib initCard ts endT).activations = 0 ∧
      (run vib initCard ts endT).extractions = 0 ∧
      (run vib initCard ts endT).hovering = false) ∧
    (∀ t endT, t + 600 ≤ endT →
      run vib initCard [t] endT =
        { initCard with hoverTimeout := some (t + 600), fired := true
                        hovering := true, activations := 1 }) ∧
    (∀ t t' endT, t' < t + 600 →
      run vib initCard [t, t'] endT = initCard) := by
  refine ⟨?_, ?_, ?_⟩
  · intro ts endT hok
    have := run_quiet vib ts.length ts endT initCard le_rfl rfl rfl hok
    exact ⟨this.1, this.2.1, this.2.2.1⟩
  · intro t endT hdue
    rw [show run vib initCard [t] endT =
          run vib (applyToggle (fireBefore vib initCard t) t) [] endT from rfl,
        fireBefore_handle_none vib rfl,
        show applyToggle initCard t =
          { initCard with hoverTimeout := some (t + 600), fired := false }
          from rfl]
    show fireBefore vib
        { initCard with hoverTimeout := some (t + 600), fired := false } endT = _
    unfold fireBefore pendingFire
    simp only [if_false, Bool.false_eq_true]
    rw [if_pos hdue]
    rfl
  · intro t t' endT hlt
    rw [show run vib initCard [t, t'] endT =
          run vib (applyToggle (fireBefore vib initCard t) t) [t'] endT from rfl,
        fireBefore_handle_none vib rfl,
        show applyToggle initCard t =
          { initCard with hoverTimeout := some (t + 600), fired := false }
          from rfl,
        show run vib
            { initCard with hoverTimeout := some (t + 600), fired := false }
            [t'] endT =
          run vib
            (applyToggle
              (fireBefore vib
                { initCard with hoverTimeout := some (t + 600), fired := false }
                t') t') [] endT from rfl,
        fireBefore_not_due vib rfl rfl hlt]
    rfl

/-- Claim C1 witness: two quick toggles (gap 300 ms) produce zero
activations; a single toggle left alone for 700 ms produces exactly one;
a cancel at 599 ms restores the initial state. -/
theorem C1_debounce_witness :
    (run (fun _ => defaultAccent) initCard [0, 300] 500).activations = 0 ∧
    run (fun _ => defaultAccent) initCard [0] 700 =
      { initCard with hoverTimeout := some 600, fired := true
                      hovering := true, activations := 1 } ∧
    run (fun _ => defaultAccent) initCard [0, 599] 1000 = initCard :=
  ⟨((C1_debounce (fun _ => defaultAccent)).1 [0, 300] 500
      ⟨by decide, trivial⟩).1,
   (C1_debounce (fun _ => defaultAccent)).2.1 0 700 (by decide),
   (C1_debounce (fun _ => defaultAccent)).2.2 0 599 1000 (by decide)⟩

/-- One event step preserves the property "if no extraction has completed,
the accent is still the fallback": the only write to `accent` also
increments `extractions`. -/
theorem stepEv_accent_inv (vib : Nat → Accent) (st : Sim) (e : Ev)
    (h : st.extractions = 0 → st.accent = defaultAccent) :
    (stepEv vib st e).extractions = 0 → (stepEv vib st e).accent = defaultAccent := by
  cases e with
  | toggle t =>
    show (applyToggle st t).extractions = 0 → (applyToggle st t).accent = _
    unfold applyToggle
    cases st.hoverTimeout <;> exact h
  | fire =>
    show (stepEv vib st Ev.fire).extractions = 0 → _
    unfold stepEv
    cases hp : pendingFire st with
    | none => exact h
    | some ft =>
      unfold applyFire
      cases hd : st.accentDone with
      | true => simpa using h
      | false =>
        cases hb : st.posterBlob with
        | none => simpa using h
        | some b => simp
  | posterLoad b => exact h

/-- No event step ever writes `accentDone`. -/
theorem stepEv_accentDone (vib : Nat → Accent) (st : Sim) (e : Ev) :
    (stepEv vib st e).accentDone = st.accentDone := by
  cases e with
  | toggle t =>
    show (applyToggle st t).accentDone = _
    unfold applyToggle
    cases st.hoverTimeout <;> rfl
  | fire =>
    unfold stepEv
    cases hp : pendingFire st with
    | none => rfl
    | some ft =>
      unfold applyFire
      cases hd : st.accentDone <;> cases hb : st.posterBlob <;> simp [hd, hb]
  | posterLoad b => rfl

/-- Claim C8: in every reachable state in which no accent extraction has
completed, the accent theme equals the fixed fallback. -/
theorem C8_accent_default (vib : Nat → Accent) (es : List Ev)
    (h : (runEvents vib initCard es).extractions = 0) :
    (runEvents vib initCard es).accent = defaultAccent := by
  suffices H : ∀ es (st : Sim), (st.extractions = 0 → st.accent = defaultAccent) →
      (runEvents vib st es).extractions = 0 →
      (runEvents vib st es).accent = defaultAccent from
    H es initCard (fun _ => rfl) h
  intro es
  induction es with
  | nil => intro st hst; exact hst
  | cons e es ih =>
    intro st hst
    exact ih (stepEv vib st e) (stepEv_accent_inv vib st e hst)

/-- Claim C8 witness: even after a full activation (toggle, then the timer
fires and mounts the popup) the accent is still the fallback, because no
extraction has run (the poster blob never loaded). -/
theorem C8_accent_default_witness :
    (runEvents (fun _ => defaultAccent) initCard
      [Ev.toggle 0, Ev.fire]).accent = defaultAccent :=
  C8_accent_default (fun _ => defaultAccent) [Ev.toggle 0, Ev.fire] (by decide)

/-- Claim C9: the `accentDone` guard is false in every reachable state — no
operation ever sets it — and consequently a timer firing (an activation)
in any state with the guard still false and the poster blob available runs
the extraction again. -/
theorem C9_accent_guard (vib : Nat → Accent) :
    (∀ es, (runEvents vib initCard es).accentDone = false) ∧
    (∀ (st : Sim) (b : Nat), st.accentDone = false → st.posterBlob = some b →
      pendingFire st ≠ none →
      (stepEv vib st Ev.fire).extractions = st.extractions + 1) := by
  constructor
  · suffices H : ∀ es (st : Sim), (runEvents vib st es).accentDone = st.accentDone by
      intro es
      rw [H es initCard]
      rfl
    intro es
    induction es with
    | nil => intro st; rfl
    | cons e es ih =>
      intro st
      rw [show runEvents vib st (e :: es) = runEvents vib (stepEv vib st e) es
            from rfl,
          ih (stepEv vib st e), stepEv_accentDone]
  · intro st b hd hb hp
    unfold stepEv
    cases hpf : pendingFire st with
    | none => exact absurd hpf hp
    | some ft =>
      unfold applyFire
      rw [hd, hb]
      simp

/-- Claim C9 witness: after a poster load, a toggle and a timer fire the
guard is still false, and firing in a state with a pending timer and a
loaded blob performs one more extraction. -/
theorem C9_accent_guard_witness :
    (runEvents (fun _ => defaultAccent) initCard
      [Ev.posterLoad 5, Ev.toggle 0, Ev.fire]).accentDone = false ∧
    (stepEv (fun _ => defaultAccent)
      { initCard with hoverTimeout := some 600, posterBlob := some 5 }
      Ev.fire).extractions =
      { initCard with hoverTimeout := some 600, posterBlob := some 5 }.extractions
        + 1 :=
  ⟨(C9_accent_guard (fun _ => defaultAccent)).1 [Ev.posterLoad 5, Ev.toggle 0, Ev.fire],
   (C9_accent_guard (fun _ => defaultAccent)).2 _ 5 rfl rfl (by decide)⟩

/-- With sufficient fuel, `Nat.toDigitsCore` produces the decimal digit
characters followed by the accumulator. -/
theorem toDigitsCore_eq_toChars :
    ∀ (f n : Nat) (acc : List Char), n < f →
      Nat.toDigitsCore 10 f n acc = toChars n ++ acc := by
  intro f
  induction f with
  | zero => intro n acc h; exact absurd h (Nat.not_lt_zero n)
  | succ f ih =>
    intro n acc h
    rw [show Nat.toDigitsCore 10 (f + 1) n acc =
          (if n / 10 = 0 then Nat.digitChar (n % 10) :: acc
           else Nat.toDigitsCore 10 f (n / 10) (Nat.digitChar (n % 10) :: acc))
          from rfl]
    by_cases h10 : n < 10
    · rw [if_pos (Nat.div_eq_of_lt h10),
          show toChars n = [Nat.digitChar n] from by rw [toChars, dif_pos h10],
          Nat.mod_eq_of_lt h10]
      rfl
    · have hdiv : n / 10 < n := Nat.div_lt_self (by omega) (by omega)
      rw [if_neg (by omega), ih (n / 10) _ (by omega),
          show toChars n = toChars (n / 10) ++ [Nat.digitChar (n % 10)] from by
            rw [toChars, dif_neg h10],
          List.append_assoc]
      rfl

/-- The decimal rendering `Nat.repr` produces exactly the characters of `toChars`. -/
theorem repr_eq_toChars (n : Nat) : Nat.repr n = String.mk (toChars n) := by
  unfold Nat.repr Nat.toDigits
  rw [toDigitsCore_eq_toChars (n + 1) n [] (Nat.lt_succ_self n), List.append_nil]
  rfl

/-- The digit list `toChars` always ends in the character of the last decimal digit. -/
theorem toChars_last (n : Nat) :
    ∃ pre, toChars n = pre ++ [Nat.digitChar (n % 10)] := by
  by_cases h : n < 10
  · refine ⟨[], ?_⟩
    rw [toChars, dif_pos h, Nat.mod_eq_of_lt h]
    rfl
  · exact ⟨toChars (n / 10), by rw [toChars, dif_neg h]⟩

/-- The padded-and-sliced component of the source equals the claim's
clamped two-digit rendering: `("0" + n).slice(-2)` is the string of the
last two decimal digits of `n`, zero-padded. -/
theorem pad2_eq_specTwoDigits (n : Nat) : pad2 n = specTwoDigits n := by
  unfold pad2 sliceLast2 specTwoDigits
  rw [repr_eq_toChars,
      show ("0" ++ String.mk (toChars n)).data = '0' :: toChars n from rfl]
  by_cases h : n < 10
  · rw [show toChars n = [Nat.digitChar n] from by rw [toChars, dif_pos h],
        Nat.mod_eq_of_lt h, Nat.div_eq_of_lt h]
    rfl
  · obtain ⟨pre, hpre⟩ := toChars_last (n / 10)
    rw [show toChars n = toChars (n / 10) ++ [Nat.digitChar (n % 10)] from by
          rw [toChars, dif_neg h],
        hpre,
        show '0' :: ((pre ++ [Nat.digitChar (n / 10 % 10)])
            ++ [Nat.digitChar (n % 10)]) =
          ('0' :: pre) ++ [Nat.digitChar (n / 10 % 10), Nat.digitChar (n % 10)]
          from by simp,
        List.length_append,
        show ([Nat.digitChar (n / 10 % 10), Nat.digitChar (n % 10)]).length = 2
          from rfl,
        Nat.add_sub_cancel, List.drop_left]

/-- Claim C7: for every non-negative integer duration `d` the rendered
length string is `hh:mm:ss` with `hh = d / 3600`, `mm = d % 3600 / 60`,
`ss = d % 3600 % 60`, each zero-padded and clamped to its last two decimal
digits; in particular the three cited examples hold. -/
theorem C7_duration_format :
    (∀ d : Nat, formatLength d = specFormat d) ∧
    formatLength 3661 = "01:01:01" ∧
    formatLength 59 = "00:00:59" ∧
    formatLength 0 = "00:00:00" := by
  have hall : ∀ d : Nat, formatLength d = specFormat d := by
    intro d
    unfold formatLength specFormat
    rw [pad2_eq_specTwoDigits, pad2_eq_specTwoDigits, pad2_eq_specTwoDigits]
  refine ⟨hall, ?_, ?_, ?_⟩ <;> rw [hall] <;> decide

end Dim
